import Mathlib

/-!
Verification development for the query-based memoization and dispatch
engine of `src/librustc/ty/maps.rs` (the `define_maps!` macro and its
single invocation).

The shallow embedding below mirrors the source:

* `DefId`, `DefId.map_crate` — `impl Key for DefId { fn map_crate(&self) -> CrateNum { self.krate } }`.
* `QueryKind` — the 21 map names declared in the `define_maps!` invocation.
* `DepNodeCtor`, `to_dep_node` — the per-kind
  `fn to_dep_node(key: &$K) -> DepNode<DefId> { DepNode::$node(*key) }`.
* `Query` — the generated `pub enum Query { $name($K) }` (a kind tag with key).
* `Providers` — the generated `pub struct Providers` holding one provider
  function per kind; a cell of `none` models the `Default` impl's stub,
  which raises `bug!("tcx.maps.{}({:?}) unsupported by its crate", ...)`.
* `providerFor` — the selection expression
  `self.providers[key.map_crate()].$name` of the generated accessor;
  `List.get?` returning `none` models the out-of-bounds panic of
  `IndexVec` indexing (the source performs no bounds or presence check
  before indexing).
* `getQuery` — the generated memoized accessor
  `pub fn $name(&self, tcx, key) { self.$name.memoize(key, || ...) }`.
  The body of `DepTrackingMap::memoize` and the code that pushes, scans
  and pops `Maps::query_stack` are not part of the sources under
  verification (only the `query_stack` field declaration is), so the
  dispatcher's memo-lookup / cycle-scan / push / dispatch / insert / pop
  sequence is modelled from the spec (§4.4) where so marked.

Execution is single-threaded and recursive; recursion is bounded by an
explicit fuel parameter, with `QueryResult.outOfFuel` signalling
exhaustion (never produced for any terminating run given enough fuel).
-/

set_option autoImplicit false

/-- A definition identifier: `DefId { krate: CrateNum, index: DefIndex }`.
Crate numbers are modelled as `Nat` (the source's `CrateNum` is a `u32`
newtype used only as an index here). -/
structure DefId where
  krate : Nat
  index : Nat
deriving DecidableEq, Repr

/-- `impl Key for DefId { fn map_crate(&self) -> CrateNum { self.krate } }` -/
def DefId.map_crate (d : DefId) : Nat := d.krate

/-- The 21 query kinds declared in the `define_maps!` invocation, in
source order. -/
inductive QueryKind where
  | ty
  | generics
  | predicates
  | super_predicates
  | type_param_predicates
  | trait_def
  | adt_def
  | adt_sized_constraint
  | variances
  | associated_item_def_ids
  | associated_item
  | impl_trait_ref
  | inherent_impls
  | repr_hints
  | mir
  | closure_kind
  | closure_type
  | custom_coerce_unsized_kind
  | typeck_tables
  | used_trait_imports
  | monomorphic_const_eval
deriving DecidableEq, Repr

/-- `stringify!($name)`: the name of each query kind as it appears in the
`bug!` message of the `Default` provider stubs. -/
def kindName : QueryKind → String
  | .ty => "ty"
  | .generics => "generics"
  | .predicates => "predicates"
  | .super_predicates => "super_predicates"
  | .type_param_predicates => "type_param_predicates"
  | .trait_def => "trait_def"
  | .adt_def => "adt_def"
  | .adt_sized_constraint => "adt_sized_constraint"
  | .variances => "variances"
  | .associated_item_def_ids => "associated_item_def_ids"
  | .associated_item => "associated_item"
  | .impl_trait_ref => "impl_trait_ref"
  | .inherent_impls => "inherent_impls"
  | .repr_hints => "repr_hints"
  | .mir => "mir"
  | .closure_kind => "closure_kind"
  | .closure_type => "closure_type"
  | .custom_coerce_unsized_kind => "custom_coerce_unsized_kind"
  | .typeck_tables => "typeck_tables"
  | .used_trait_imports => "used_trait_imports"
  | .monomorphic_const_eval => "monomorphic_const_eval"

/-- The `DepNode` constructors named in the `define_maps!` invocation
(the `$node` of each `pub $name: $node($K) -> $V` line). -/
inductive DepNodeCtor where
  | ItemSignature
  | SizedConstraint
  | AssociatedItemDefIds
  | AssociatedItems
  | InherentImpls
  | ReprHints
  | Mir
  | TypeckTables
  | UsedTraitImports
  | MonomorphicConstEval
deriving DecidableEq, Repr

/-- A dependency-graph node identity: `DepNode::$node(key)`. -/
structure DepNode where
  ctor : DepNodeCtor
  key : DefId
deriving DecidableEq, Repr

/-- The `$node` constructor each kind was declared with in the
`define_maps!` invocation, in source order. -/
def nodeOf : QueryKind → DepNodeCtor
  | .ty => .ItemSignature
  | .generics => .ItemSignature
  | .predicates => .ItemSignature
  | .super_predicates => .ItemSignature
  | .type_param_predicates => .ItemSignature
  | .trait_def => .ItemSignature
  | .adt_def => .ItemSignature
  | .adt_sized_constraint => .SizedConstraint
  | .variances => .ItemSignature
  | .associated_item_def_ids => .AssociatedItemDefIds
  | .associated_item => .AssociatedItems
  | .impl_trait_ref => .ItemSignature
  | .inherent_impls => .InherentImpls
  | .repr_hints => .ReprHints
  | .mir => .Mir
  | .closure_kind => .ItemSignature
  | .closure_type => .ItemSignature
  | .custom_coerce_unsized_kind => .ItemSignature
  | .typeck_tables => .TypeckTables
  | .used_trait_imports => .UsedTraitImports
  | .monomorphic_const_eval => .MonomorphicConstEval

/-- `fn to_dep_node(key: &$K) -> DepNode<DefId> { DepNode::$node(*key) }`,
written uniformly over the kind tag. -/
def to_dep_node (kind : QueryKind) (key : DefId) : DepNode :=
  { ctor := nodeOf kind, key := key }

/-- The kinds declared with the `ItemSignature` node constructor, in
source order. -/
def itemSignatureKinds : List QueryKind :=
  [.ty, .generics, .predicates, .super_predicates, .type_param_predicates,
   .trait_def, .adt_def, .variances, .impl_trait_ref, .closure_kind,
   .closure_type, .custom_coerce_unsized_kind]

/-- The generated `pub enum Query { $name($K) }`: a query kind together
with its key (all declared kinds have key type `DefId`). -/
structure Query where
  kind : QueryKind
  key : DefId
deriving DecidableEq, Repr

/-- A provider body. Providers may recursively issue further queries
against the same engine (`tcx`), so a provider is a small program:
either a finished value or a nested `get` with a continuation. -/
inductive Prog (V : Type) where
  | pure : V → Prog V
  | get : QueryKind → DefId → (V → Prog V) → Prog V

/-- One row of the provider table: the generated `pub struct Providers`,
holding one provider function per query kind. A cell of `none` models a
slot left at its `Default`, i.e. the stub
`fn $name(...) { bug!("tcx.maps.{}({:?}) unsupported by its crate", stringify!($name), key) }`. -/
abbrev Providers (V : Type) := QueryKind → Option (DefId → Prog V)

/-- The `bug!` message raised by a `Default` provider stub. -/
def bugMessage (kind : QueryKind) (key : DefId) : String :=
  "tcx.maps." ++ kindName kind ++ "(DefId(" ++ toString key.krate
    ++ ":" ++ toString key.index ++ ")) unsupported by its crate"

/-- `self.providers[key.map_crate()].$name`: the provider-selection
expression of the generated accessor. The row is chosen by the key's
owning crate alone; `none` for the outer layer models the panic of
`IndexVec` indexing when `key.map_crate()` has no row (the source has no
bounds or presence check), and `some none` a row whose `$name` cell is
the `Default` stub. -/
def providerFor {V : Type} (pt : List (Providers V)) (kind : QueryKind)
    (key : DefId) : Option (Option (DefId → Prog V)) :=
  (pt.get? key.map_crate).map (fun row => row kind)

/-- Memo-table lookup (spec §4.2 `lookup(key) -> Value?`); first match
wins, mirroring a map with at most one entry per key. -/
def lookupMemo {V : Type} : List (Query × V) → Query → Option V
  | [], _ => none
  | (q', v) :: rest, q => if q' = q then some v else lookupMemo rest q

/-- Modelled from the spec: `DepTrackingMap` insertion (§4.2
`insert(key, value)`, first-writer-wins: a second insert for an
already-present key is a no-op and never replaces the stored value).
The body of `DepTrackingMap` is not among the sources under
verification. -/
def insertMemo {V : Type} (m : List (Query × V)) (q : Query) (v : V) :
    List (Query × V) :=
  match lookupMemo m q with
  | some _ => m
  | none => (q, v) :: m

/-- The session state reached through the engine's interior mutability:
the union of the per-kind `DepTrackingMap` caches (`memo`, keyed by the
`Query` kind-tag-with-key), the `query_stack: RefCell<Vec<Query>>`
(`stack`, pushed at the end), and a ghost log `trace` recording one
entry per provider invocation (the spec's "call counter inside a test
provider"). -/
structure EngineState (V : Type) where
  memo : List (Query × V)
  stack : List Query
  trace : List Query
deriving DecidableEq, Repr

/-- The empty state at session start: caches and stack start empty. -/
def initState (V : Type) : EngineState V := { memo := [], stack := [], trace := [] }

/-- Push a frame onto the query stack (`Vec::push`). -/
def pushFrame {V : Type} (s : EngineState V) (q : Query) : EngineState V :=
  { s with stack := s.stack ++ [q] }

/-- Pop the most recently pushed frame (`Vec::pop`). -/
def popFrame {V : Type} (s : EngineState V) : EngineState V :=
  { s with stack := s.stack.dropLast }

/-- Record one provider invocation in the ghost trace. -/
def recordCall {V : Type} (s : EngineState V) (q : Query) : EngineState V :=
  { s with trace := s.trace ++ [q] }

/-- Insert a computed result into the memo table. -/
def insertResult {V : Type} (s : EngineState V) (q : Query) (v : V) :
    EngineState V :=
  { s with memo := insertMemo s.memo q v }

/-- Outcome of a `get` call. `ok` is a normal return; `cycle` carries
the ordered frame chain from the matching frame to the top of the
stack; `unsupported` is the `Default` stub's `bug!`, carrying the kind
and key it names; `indexPanic` is the out-of-bounds `IndexVec` indexing
panic, carrying the offending crate number; `outOfFuel` signals
exhaustion of the explicit recursion bound. -/
inductive QueryResult (V : Type) where
  | ok : V → QueryResult V
  | cycle : List Query → QueryResult V
  | unsupported : QueryKind → DefId → QueryResult V
  | indexPanic : Nat → QueryResult V
  | outOfFuel : QueryResult V
deriving DecidableEq, Repr

/-- The diagnostic text a failure carries: the stub's `bug!` message for
`unsupported`, the panic message for out-of-bounds indexing, a frame
chain header for cycles. -/
def failureMessage {V : Type} : QueryResult V → Option String
  | .ok _ => none
  | .cycle chain => some ("cycle detected, " ++ toString chain.length ++ " frames")
  | .unsupported kind key => some (bugMessage kind key)
  | .indexPanic cnum => some ("index out of bounds: " ++ toString cnum)
  | .outOfFuel => none

/-- The frames reported on a cycle: the ordered list from the matching
frame to the top of the stack (spec §4.4 step 2). -/
def cycleChain (stack : List Query) (q : Query) : List Query :=
  stack.drop (List.findIdx (fun f => decide (f = q)) stack)

/-- Run a provider body, answering its nested `get` requests with `g`
(the engine itself, one fuel level down). A failure of a nested query
propagates and aborts the provider (spec §5: a failure is fatal for the
enclosing unit of work). -/
def runProg {V : Type}
    (g : EngineState V → QueryKind → DefId → QueryResult V × EngineState V) :
    EngineState V → Prog V → QueryResult V × EngineState V
  | s, .pure v => (.ok v, s)
  | s, .get kind key k =>
    match g s kind key with
    | (.ok v, s1) => runProg g s1 (k v)
    | (r, s1) => (r, s1)

/-- One dispatch step of the generated accessor
`self.$name.memoize(key, || (self.providers[key.map_crate()].$name)(tcx.global_tcx(), key))`.
Modelled from the spec (§4.4) for the parts whose bodies are not among
the sources under verification (`DepTrackingMap::memoize` and the
`query_stack` push/scan/pop discipline):
1. memo lookup — hit returns the cached value with no stack interaction
   and no provider call;
2. miss — scan the stack for a frame equal to the requested
   (kind, key); if found, fail with `cycle` before any dispatch;
3. otherwise push a frame, select the provider by the key's owning
   crate (`providerFor`, straight from the source) and run it;
4. on success pop the frame strictly before inserting the result into
   the memo table; on failure pop the frame and propagate, inserting
   nothing. -/
def getStep {V : Type} (pt : List (Providers V))
    (g : EngineState V → QueryKind → DefId → QueryResult V × EngineState V)
    (s : EngineState V) (kind : QueryKind) (key : DefId) :
    QueryResult V × EngineState V :=
  match lookupMemo s.memo ⟨kind, key⟩ with
  | some v => (.ok v, s)
  | none =>
    if (⟨kind, key⟩ : Query) ∈ s.stack then
      (.cycle (cycleChain s.stack ⟨kind, key⟩), s)
    else
      match providerFor pt kind key with
      | none =>
        (.indexPanic key.map_crate, popFrame (pushFrame s ⟨kind, key⟩))
      | some none =>
        (.unsupported kind key, popFrame (pushFrame s ⟨kind, key⟩))
      | some (some p) =>
        match runProg g (recordCall (pushFrame s ⟨kind, key⟩) ⟨kind, key⟩) (p key) with
        | (.ok v, s3) => (.ok v, insertResult (popFrame s3) ⟨kind, key⟩ v)
        | (r, s3) => (r, popFrame s3)

/-- The generated memoized accessor `Maps::$name` (the spec's
`get(kind, key)`), with an explicit fuel bound on recursion depth. -/
def getQuery {V : Type} (pt : List (Providers V)) :
    Nat → EngineState V → QueryKind → DefId → QueryResult V × EngineState V
  | 0, s, _, _ => (.outOfFuel, s)
  | fuel + 1, s, kind, key => getStep pt (getQuery pt fuel) s kind key

/-- Number of occurrences of a query in the ghost trace (the spec's
provider call counter for that (kind, key)). -/
def countQ (q : Query) : List Query → Nat
  | [] => 0
  | x :: xs => (if x = q then 1 else 0) + countQ q xs

/-- The per-key distinctness of the memo table: no two entries share a
key (spec §3: at most one MemoEntry per (kind, key) at any time). -/
def NodupKeys {V : Type} (m : List (Query × V)) : Prop :=
  m.Pairwise (fun a b => a.1 ≠ b.1)

/-- The spec's §3 invariant: no (kind, key) pair is simultaneously a
frame on the query stack and an entry in the memo table. -/
def DisjointSM {V : Type} (s : EngineState V) : Prop :=
  ∀ q ∈ s.stack, lookupMemo s.memo q = none

/-- Test fixture: the crate-0 provider row used in concrete runs. It
implements only `ty` (computing `index + 100`) and leaves every other
cell at its `Default` stub. -/
def tyRow : Providers Nat := fun kind =>
  match kind with
  | .ty => some (fun key => Prog.pure (key.index + 100))
  | _ => none

/-- Test fixture: a provider table whose single row (crate 0) is `tyRow`. -/
def pt0 : List (Providers Nat) := [tyRow]

/-- Test fixture key `a` (crate 0). -/
def defA : DefId := ⟨0, 0⟩

/-- Test fixture key `b` (crate 0). -/
def defB : DefId := ⟨0, 1⟩

/-- Test fixture: crate-0 providers where the `ty` provider for `defA`
requests `ty` of `defB` and vice versa — the spec's mutual-recursion
scenario (§8). -/
def cycRow : Providers Nat := fun kind =>
  match kind with
  | .ty => some (fun key =>
      if key = defA then Prog.get .ty defB (fun v => Prog.pure v)
      else Prog.get .ty defA (fun v => Prog.pure v))
  | _ => none

/-- Test fixture: a provider table whose single row (crate 0) is `cycRow`. -/
def cycPT : List (Providers Nat) := [cycRow]

/-- The session state after one successful `ty(0, 3)` call on `pt0`
from the initial state. -/
def afterTyState : EngineState Nat :=
  { memo := [(⟨.ty, ⟨0, 3⟩⟩, 103)], stack := [], trace := [⟨.ty, ⟨0, 3⟩⟩] }

theorem countQ_append (q : Query) (l1 l2 : List Query) :
    countQ q (l1 ++ l2) = countQ q l1 + countQ q l2 := by
  induction l1 with
  | nil => simp [countQ]
  | cons x xs ih => simp [countQ, ih, Nat.add_assoc]

theorem countQ_single_ne (q x : Query) (h : x ≠ q) : countQ q [x] = 0 := by
  simp [countQ, h]

theorem countQ_single_self (q : Query) : countQ q [q] = 1 := by
  simp [countQ]

theorem lookupMemo_insertMemo_self {V : Type} (m : List (Query × V)) (q : Query)
    (v : V) (h : lookupMemo m q = none) :
    lookupMemo (insertMemo m q v) q = some v := by
  simp [insertMemo, h, lookupMemo]

theorem lookupMemo_insertMemo_ne {V : Type} (m : List (Query × V)) (q q' : Query)
    (v : V) (h : q ≠ q') :
    lookupMemo (insertMemo m q v) q' = lookupMemo m q' := by
  unfold insertMemo
  cases hm : lookupMemo m q with
  | some w => rfl
  | none => simp [lookupMemo, h]

theorem insertMemo_of_present {V : Type} (m : List (Query × V)) (q : Query)
    (v w : V) (h : lookupMemo m q = some v) : insertMemo m q w = m := by
  simp [insertMemo, h]

theorem lookupMemo_insertMemo_mono {V : Type} (m : List (Query × V))
    (q q' : Query) (v w : V) (h : lookupMemo m q' = some v) :
    lookupMemo (insertMemo m q w) q' = some v := by
  by_cases hqq : q = q'
  · subst hqq
    rw [insertMemo_of_present m q v w h, h]
  · rw [lookupMemo_insertMemo_ne m q q' w hqq, h]

theorem lookupMemo_none_forall {V : Type} (m : List (Query × V)) (q : Query)
    (h : lookupMemo m q = none) : ∀ e ∈ m, e.1 ≠ q := by
  induction m with
  | nil => intro e he; cases he
  | cons x xs ih =>
    obtain ⟨qx, vx⟩ := x
    intro e he
    rw [List.mem_cons] at he
    by_cases hx : qx = q
    · rw [lookupMemo, if_pos hx] at h
      cases h
    · rcases he with rfl | he
      · simpa using hx
      · rw [lookupMemo, if_neg hx] at h
        exact ih h e he

theorem NodupKeys_insertMemo {V : Type} (m : List (Query × V)) (q : Query)
    (v : V) (h : NodupKeys m) : NodupKeys (insertMemo m q v) := by
  unfold insertMemo
  cases hm : lookupMemo m q with
  | some w => exact h
  | none =>
    refine List.Pairwise.cons ?_ h
    intro e he
    exact (lookupMemo_none_forall m q hm e he).symm

theorem runProg_stack {V : Type}
    (g : EngineState V → QueryKind → DefId → QueryResult V × EngineState V)
    (hg : ∀ s kind key, ((g s kind key).2).stack = s.stack) :
    ∀ (s : EngineState V) (p : Prog V), ((runProg g s p).2).stack = s.stack := by
  intro s p
  induction p generalizing s with
  | pure v => rfl
  | get kind key k ih =>
    simp only [runProg]
    rcases hr : g s kind key with ⟨r, s1⟩
    have hs1 : s1.stack = s.stack := by
      have h := hg s kind key
      rw [hr] at h
      exact h
    cases r with
    | ok v => simpa [hs1] using ih v s1
    | cycle c => exact hs1
    | unsupported kk dd => exact hs1
    | indexPanic n => exact hs1
    | outOfFuel => exact hs1

theorem getQuery_stack {V : Type} (pt : List (Providers V)) :
    ∀ (fuel : Nat) (s : EngineState V) (kind : QueryKind) (key : DefId),
      ((getQuery pt fuel s kind key).2).stack = s.stack := by
  intro fuel
  induction fuel with
  | zero => intro s kind key; rfl
  | succ fuel ih =>
    intro s kind key
    show ((getStep pt (getQuery pt fuel) s kind key).2).stack = s.stack
    unfold getStep
    split
    · rfl
    · split
      · rfl
      · split
        · simp [popFrame, pushFrame, List.dropLast_concat]
        · simp [popFrame, pushFrame, List.dropLast_concat]
        next p hp =>
          have hrun : ((runProg (getQuery pt fuel)
              (recordCall (pushFrame s ⟨kind, key⟩) ⟨kind, key⟩) (p key)).2).stack
              = s.stack ++ [⟨kind, key⟩] := by
            have h := runProg_stack (getQuery pt fuel) (fun a b c => ih a b c)
              (recordCall (pushFrame s ⟨kind, key⟩) ⟨kind, key⟩) (p key)
            simpa [recordCall, pushFrame] using h
          rcases hr : runProg (getQuery pt fuel)
              (recordCall (pushFrame s ⟨kind, key⟩) ⟨kind, key⟩) (p key) with ⟨r, s3⟩
          rw [hr] at hrun
          simp only [Prod.snd] at hrun
          cases r <;>
            simp [insertResult, popFrame, hrun, List.dropLast_concat]

theorem runProg_pending {V : Type} (q0 : Query)
    (g : EngineState V → QueryKind → DefId → QueryResult V × EngineState V)
    (hgs : ∀ s kind key, ((g s kind key).2).stack = s.stack)
    (hg : ∀ s kind key, q0 ∈ s.stack →
      lookupMemo ((g s kind key).2).memo q0 = lookupMemo s.memo q0 ∧
      countQ q0 ((g s kind key).2).trace = countQ q0 s.trace) :
    ∀ (s : EngineState V) (p : Prog V), q0 ∈ s.stack →
      lookupMemo ((runProg g s p).2).memo q0 = lookupMemo s.memo q0 ∧
      countQ q0 ((runProg g s p).2).trace = countQ q0 s.trace := by
  intro s p
  induction p generalizing s with
  | pure v => intro _; exact ⟨rfl, rfl⟩
  | get kind key k ih =>
    intro hmem
    simp only [runProg]
    rcases hr : g s kind key with ⟨r, s1⟩
    have h1 := hg s kind key hmem
    rw [hr] at h1
    have hstk : s1.stack = s.stack := by
      have h := hgs s kind key
      rw [hr] at h
      exact h
    have hmem1 : q0 ∈ s1.stack := hstk ▸ hmem
    cases r with
    | ok v =>
      exact ⟨((ih v s1 hmem1).1).trans h1.1, ((ih v s1 hmem1).2).trans h1.2⟩
    | cycle c => exact h1
    | unsupported kk dd => exact h1
    | indexPanic n => exact h1
    | outOfFuel => exact h1

theorem getQuery_pending {V : Type} (pt : List (Providers V)) (q0 : Query) :
    ∀ (fuel : Nat) (s : EngineState V) (kind : QueryKind) (key : DefId),
      q0 ∈ s.stack →
      lookupMemo ((getQuery pt fuel s kind key).2).memo q0 = lookupMemo s.memo q0 ∧
      countQ q0 ((getQuery pt fuel s kind key).2).trace = countQ q0 s.trace := by
  intro fuel
  induction fuel with
  | zero => intro s kind key _; exact ⟨rfl, rfl⟩
  | succ fuel ih =>
    intro s kind key hmem
    simp only [getQuery]
    unfold getStep
    split
    · exact ⟨rfl, rfl⟩
    next hmiss =>
      split
      · exact ⟨rfl, rfl⟩
      next hnost =>
        have hne : (⟨kind, key⟩ : Query) ≠ q0 := fun h => hnost (h ▸ hmem)
        split
        · exact ⟨rfl, rfl⟩
        · exact ⟨rfl, rfl⟩
        next p hp =>
          have hmem2 : q0 ∈ (recordCall (pushFrame s ⟨kind, key⟩) ⟨kind, key⟩).stack :=
            List.mem_append_left _ hmem
          have hpend := runProg_pending q0 (getQuery pt fuel)
            (fun a b c => getQuery_stack pt fuel a b c)
            (fun a b c hm => ih a b c hm)
            (recordCall (pushFrame s ⟨kind, key⟩) ⟨kind, key⟩) (p key) hmem2
          have htr2 : countQ q0 (recordCall (pushFrame s ⟨kind, key⟩) ⟨kind, key⟩).trace
              = countQ q0 s.trace := by
            show countQ q0 (s.trace ++ [⟨kind, key⟩]) = countQ q0 s.trace
            simp [countQ_append, countQ_single_ne q0 _ hne]
          rcases hr : runProg (getQuery pt fuel)
              (recordCall (pushFrame s ⟨kind, key⟩) ⟨kind, key⟩) (p key) with ⟨r, s3⟩
          rw [hr] at hpend
          simp only [Prod.snd] at hpend
          cases r with
          | ok v =>
            constructor
            · show lookupMemo (insertMemo s3.memo ⟨kind, key⟩ v) q0 = lookupMemo s.memo q0
              rw [lookupMemo_insertMemo_ne _ _ _ _ hne]
              exact hpend.1
            · show countQ q0 s3.trace = countQ q0 s.trace
              exact (hpend.2).trans htr2
          | cycle c => exact ⟨hpend.1, (hpend.2).trans htr2⟩
          | unsupported kk dd => exact ⟨hpend.1, (hpend.2).trans htr2⟩
          | indexPanic n => exact ⟨hpend.1, (hpend.2).trans htr2⟩
          | outOfFuel => exact ⟨hpend.1, (hpend.2).trans htr2⟩

theorem runProg_memoInv {V : Type} (P : List (Query × V) → Prop)
    (g : EngineState V → QueryKind → DefId → QueryResult V × EngineState V)
    (hg : ∀ s kind key, P s.memo → P ((g s kind key).2).memo) :
    ∀ (s : EngineState V) (p : Prog V), P s.memo → P ((runProg g s p).2).memo := by
  intro s p
  induction p generalizing s with
  | pure v => intro h; exact h
  | get kind key k ih =>
    intro h
    simp only [runProg]
    rcases hr : g s kind key with ⟨r, s1⟩
    have h1 := hg s kind key h
    rw [hr] at h1
    cases r with
    | ok v => exact ih v s1 h1
    | cycle c => exact h1
    | unsupported kk dd => exact h1
    | indexPanic n => exact h1
    | outOfFuel => exact h1

theorem getQuery_memoInv {V : Type} (pt : List (Providers V))
    (P : List (Query × V) → Prop)
    (hP : ∀ (m : List (Query × V)) (q : Query) (v : V), P m → P (insertMemo m q v)) :
    ∀ (fuel : Nat) (s : EngineState V) (kind : QueryKind) (key : DefId),
      P s.memo → P ((getQuery pt fuel s kind key).2).memo := by
  intro fuel
  induction fuel with
  | zero => intro s kind key h; exact h
  | succ fuel ih =>
    intro s kind key h
    simp only [getQuery]
    unfold getStep
    split
    · exact h
    · split
      · exact h
      · split
        · exact h
        · exact h
        next p hp =>
          have h3 := runProg_memoInv P (getQuery pt fuel) (fun a b c => ih a b c)
            (recordCall (pushFrame s ⟨kind, key⟩) ⟨kind, key⟩) (p key) h
          rcases hr : runProg (getQuery pt fuel)
              (recordCall (pushFrame s ⟨kind, key⟩) ⟨kind, key⟩) (p key) with ⟨r, s3⟩
          rw [hr] at h3
          simp only [Prod.snd] at h3
          cases r with
          | ok v => exact hP _ _ _ h3
          | cycle c => exact h3
          | unsupported kk dd => exact h3
          | indexPanic n => exact h3
          | outOfFuel => exact h3

theorem getQuery_memo_preserve {V : Type} (pt : List (Providers V))
    (fuel : Nat) (s : EngineState V) (kind : QueryKind) (key : DefId)
    (q : Query) (v : V) (h : lookupMemo s.memo q = some v) :
    lookupMemo ((getQuery pt fuel s kind key).2).memo q = some v :=
  getQuery_memoInv pt (fun m => lookupMemo m q = some v)
    (fun m q' w hm => lookupMemo_insertMemo_mono m q' q v w hm)
    fuel s kind key h

theorem getQuery_nodupKeys {V : Type} (pt : List (Providers V))
    (fuel : Nat) (s : EngineState V) (kind : QueryKind) (key : DefId)
    (h : NodupKeys s.memo) :
    NodupKeys ((getQuery pt fuel s kind key).2).memo :=
  getQuery_memoInv pt NodupKeys
    (fun m q v hm => NodupKeys_insertMemo m q v hm) fuel s kind key h

theorem runProg_disjoint {V : Type}
    (g : EngineState V → QueryKind → DefId → QueryResult V × EngineState V)
    (hg : ∀ s kind key, DisjointSM s → DisjointSM ((g s kind key).2)) :
    ∀ (s : EngineState V) (p : Prog V), DisjointSM s → DisjointSM ((runProg g s p).2) := by
  intro s p
  induction p generalizing s with
  | pure v => intro h; exact h
  | get kind key k ih =>
    intro h
    simp only [runProg]
    rcases hr : g s kind key with ⟨r, s1⟩
    have h1 := hg s kind key h
    rw [hr] at h1
    cases r with
    | ok v => exact ih v s1 h1
    | cycle c => exact h1
    | unsupported kk dd => exact h1
    | indexPanic n => exact h1
    | outOfFuel => exact h1

theorem getQuery_disjoint {V : Type} (pt : List (Providers V)) :
    ∀ (fuel : Nat) (s : EngineState V) (kind : QueryKind) (key : DefId),
      DisjointSM s → DisjointSM ((getQuery pt fuel s kind key).2) := by
  intro fuel
  induction fuel with
  | zero => intro s kind key h; exact h
  | succ fuel ih =>
    intro s kind key h
    simp only [getQuery]
    unfold getStep
    split
    · exact h
    next hmiss =>
      split
      · exact h
      next hnost =>
        split
        · intro q' hq'
          apply h
          simpa [popFrame, pushFrame, List.dropLast_concat] using hq'
        · intro q' hq'
          apply h
          simpa [popFrame, pushFrame, List.dropLast_concat] using hq'
        next p hp =>
          have hdis2 : DisjointSM (recordCall (pushFrame s ⟨kind, key⟩) ⟨kind, key⟩) := by
            intro q' hq'
            rcases List.mem_append.mp hq' with hq' | hq'
            · exact h q' hq'
            · rw [List.mem_singleton] at hq'
              subst hq'
              exact hmiss
          have h3 := runProg_disjoint (getQuery pt fuel) (fun a b c => ih a b c)
            (recordCall (pushFrame s ⟨kind, key⟩) ⟨kind, key⟩) (p key) hdis2
          have hstk3 : ((runProg (getQuery pt fuel)
              (recordCall (pushFrame s ⟨kind, key⟩) ⟨kind, key⟩) (p key)).2).stack
              = s.stack ++ [⟨kind, key⟩] :=
            runProg_stack (getQuery pt fuel) (fun a b c => getQuery_stack pt fuel a b c)
              (recordCall (pushFrame s ⟨kind, key⟩) ⟨kind, key⟩) (p key)
          rcases hr : runProg (getQuery pt fuel)
              (recordCall (pushFrame s ⟨kind, key⟩) ⟨kind, key⟩) (p key) with ⟨r, s3⟩
          rw [hr] at h3 hstk3
          simp only [Prod.snd] at h3 hstk3
          cases r with
          | ok v =>
            intro q' hq'
            have hq's : q' ∈ s.stack := by
              have : q' ∈ s3.stack.dropLast := hq'
              rwa [hstk3, List.dropLast_concat] at this
            have hq'ne : (⟨kind, key⟩ : Query) ≠ q' := by
              intro hEq
              exact hnost (hEq ▸ hq's)
            show lookupMemo (insertMemo s3.memo ⟨kind, key⟩ v) q' = none
            rw [lookupMemo_insertMemo_ne _ _ _ _ hq'ne]
            exact h3 q' (hstk3 ▸ List.mem_append_left _ hq's)
          | cycle c =>
            intro q' hq'
            have : q' ∈ s3.stack := (List.dropLast_sublist _).subset hq'
            exact h3 q' this
          | unsupported kk dd =>
            intro q' hq'
            have : q' ∈ s3.stack := (List.dropLast_sublist _).subset hq'
            exact h3 q' this
          | indexPanic n =>
            intro q' hq'
            have : q' ∈ s3.stack := (List.dropLast_sublist _).subset hq'
            exact h3 q' this
          | outOfFuel =>
            intro q' hq'
            have : q' ∈ s3.stack := (List.dropLast_sublist _).subset hq'
            exact h3 q' this

theorem getQuery_requested_memo {V : Type} (pt : List (Providers V))
    (fuel : Nat) (s : EngineState V) (kind : QueryKind) (key : DefId)
    (r : QueryResult V) (s' : EngineState V)
    (hmiss : lookupMemo s.memo ⟨kind, key⟩ = none)
    (h : getQuery pt fuel s kind key = (r, s')) :
    (∀ v : V, r = .ok v →
      lookupMemo s'.memo ⟨kind, key⟩ = some v ∧
      countQ ⟨kind, key⟩ s'.trace = countQ ⟨kind, key⟩ s.trace + 1) ∧
    ((∀ v : V, r ≠ .ok v) → lookupMemo s'.memo ⟨kind, key⟩ = none) := by
  rcases fuel with _ | fuel
  · simp only [getQuery] at h
    injection h with h1 h2
    subst h1
    subst h2
    exact ⟨fun v hv => QueryResult.noConfusion hv, fun _ => hmiss⟩
  · simp only [getQuery] at h
    unfold getStep at h
    split at h
    next val heq =>
      rw [hmiss] at heq
      exact Option.noConfusion heq
    next heq =>
      split at h
      next hmem =>
        injection h with h1 h2
        subst h1
        subst h2
        exact ⟨fun v hv => QueryResult.noConfusion hv, fun _ => hmiss⟩
      next hnost =>
        have hmem2 : (⟨kind, key⟩ : Query) ∈
            (recordCall (pushFrame s ⟨kind, key⟩) ⟨kind, key⟩).stack :=
          List.mem_append_right _ (List.mem_singleton_self _)
        split at h
        · injection h with h1 h2
          subst h1
          subst h2
          exact ⟨fun v hv => QueryResult.noConfusion hv, fun _ => hmiss⟩
        · injection h with h1 h2
          subst h1
          subst h2
          exact ⟨fun v hv => QueryResult.noConfusion hv, fun _ => hmiss⟩
        next p hp =>
          have hpend := runProg_pending ⟨kind, key⟩ (getQuery pt fuel)
            (fun a b c => getQuery_stack pt fuel a b c)
            (fun a b c hm => getQuery_pending pt ⟨kind, key⟩ fuel a b c hm)
            (recordCall (pushFrame s ⟨kind, key⟩) ⟨kind, key⟩) (p key) hmem2
          rcases hr : runProg (getQuery pt fuel)
              (recordCall (pushFrame s ⟨kind, key⟩) ⟨kind, key⟩) (p key) with ⟨r3, s3⟩
          rw [hr] at h hpend
          simp only [Prod.snd] at hpend
          have hm3 : lookupMemo s3.memo ⟨kind, key⟩ = none := (hpend.1).trans hmiss
          have ht3 : countQ ⟨kind, key⟩ s3.trace
              = countQ ⟨kind, key⟩ s.trace + 1 := by
            rw [hpend.2]
            show countQ ⟨kind, key⟩ (s.trace ++ [⟨kind, key⟩]) = _
            rw [countQ_append, countQ_single_self]
          cases r3 with
          | ok w =>
            simp only at h
            injection h with h1 h2
            subst h1
            subst h2
            constructor
            · intro v hv
              injection hv with hv
              subst hv
              constructor
              · show lookupMemo (insertMemo s3.memo ⟨kind, key⟩ w) ⟨kind, key⟩ = some w
                exact lookupMemo_insertMemo_self s3.memo ⟨kind, key⟩ w hm3
              · exact ht3
            · intro hne
              exact absurd rfl (hne w)
          | cycle c =>
            simp only at h
            injection h with h1 h2
            subst h1
            subst h2
            exact ⟨fun v hv => QueryResult.noConfusion hv, fun _ => hm3⟩
          | unsupported kk dd =>
            simp only at h
            injection h with h1 h2
            subst h1
            subst h2
            exact ⟨fun v hv => QueryResult.noConfusion hv, fun _ => hm3⟩
          | indexPanic n =>
            simp only at h
            injection h with h1 h2
            subst h1
            subst h2
            exact ⟨fun v hv => QueryResult.noConfusion hv, fun _ => hm3⟩
          | outOfFuel =>
            simp only at h
            injection h with h1 h2
            subst h1
            subst h2
            exact ⟨fun v hv => QueryResult.noConfusion hv, fun _ => hm3⟩

/-- C1: for every query kind and key, two calls to the engine's get for
that (kind, key) with no intervening session reset return equal Values
and the underlying provider executes exactly once: a first call that
misses the memo table and succeeds runs the provider once for the pair
(the ghost provider-call trace gains exactly one entry for it), and a
second call is answered from the memo table with the same Value and the
state — including the provider-call trace — unchanged, so no provider
call occurs. -/
theorem C1_memoized_get_runs_provider_once {V : Type} (pt : List (Providers V))
    (fuel fuel' : Nat) (s s' : EngineState V) (kind : QueryKind) (key : DefId)
    (v : V)
    (hmiss : lookupMemo s.memo ⟨kind, key⟩ = none)
    (h : getQuery pt fuel s kind key = (.ok v, s')) :
    getQuery pt (fuel' + 1) s' kind key = (.ok v, s') ∧
    countQ ⟨kind, key⟩ s'.trace = countQ ⟨kind, key⟩ s.trace + 1 := by
  have hspec := (getQuery_requested_memo pt fuel s kind key _ s' hmiss h).1 v rfl
  constructor
  · simp only [getQuery]
    unfold getStep
    rw [hspec.1]
  · exact hspec.2

theorem C1_witness :
    lookupMemo (initState Nat).memo ⟨.ty, ⟨0, 3⟩⟩ = none ∧
    getQuery pt0 2 (initState Nat) .ty ⟨0, 3⟩ = (.ok 103, afterTyState) ∧
    (getQuery pt0 1 afterTyState .ty ⟨0, 3⟩ = (.ok 103, afterTyState) ∧
      countQ ⟨.ty, ⟨0, 3⟩⟩ afterTyState.trace
        = countQ ⟨.ty, ⟨0, 3⟩⟩ (initState Nat).trace + 1) :=
  ⟨rfl, by decide,
    C1_memoized_get_runs_provider_once pt0 2 0 (initState Nat) afterTyState
      .ty ⟨0, 3⟩ 103 rfl (by decide)⟩

/-- C2: the provider answering a request for key `k` is selected by
`k`'s owning crate alone: `providerFor` — the embedding of the
accessor's `self.providers[key.map_crate()].$name` — returns the same
provider cell for any two keys with the same owning crate, and the
owning crate is computed from the key alone as its `krate` field
(`impl Key for DefId`). No component of the requesting context enters
the selection: `providerFor` takes only the table, the kind and the
key. -/
theorem C2_provider_selected_by_key_crate {V : Type} (pt : List (Providers V))
    (kind : QueryKind) (k1 k2 : DefId)
    (h : DefId.map_crate k1 = DefId.map_crate k2) :
    providerFor pt kind k1 = providerFor pt kind k2 ∧
    DefId.map_crate k1 = k1.krate := by
  constructor
  · unfold providerFor
    rw [h]
  · rfl

theorem C2_witness :
    DefId.map_crate ⟨0, 3⟩ = DefId.map_crate ⟨0, 7⟩ ∧
    (providerFor pt0 .ty ⟨0, 3⟩ = providerFor pt0 .ty ⟨0, 7⟩ ∧
      DefId.map_crate ⟨0, 3⟩ = DefId.krate ⟨0, 3⟩) :=
  ⟨rfl, C2_provider_selected_by_key_crate pt0 .ty ⟨0, 3⟩ ⟨0, 7⟩ rfl⟩

/-- C3: a get that misses the memo table scans the query stack for a
frame equal to the requested (kind, key) before any provider dispatch:
if such a frame exists the call returns a Cycle failure (carrying the
frames from the matching one to the top) with the state — including the
provider-call trace — unchanged, so a provider never begins executing
while its own (kind, key) is already pending; and the mutually
recursive providers of `cycPT` (ty(a) requests ty(b), which requests
ty(a)) produce a Cycle failure rather than unbounded recursion. -/
theorem C3_cycle_scan_before_dispatch {V : Type} (pt : List (Providers V))
    (fuel : Nat) (s : EngineState V) (kind : QueryKind) (key : DefId)
    (hmiss : lookupMemo s.memo ⟨kind, key⟩ = none)
    (hmem : (⟨kind, key⟩ : Query) ∈ s.stack) :
    getQuery pt (fuel + 1) s kind key
      = (.cycle (cycleChain s.stack ⟨kind, key⟩), s) ∧
    getQuery cycPT 10 (initState Nat) .ty defA
      = (.cycle [⟨.ty, defA⟩, ⟨.ty, defB⟩],
          { memo := [], stack := [], trace := [⟨.ty, defA⟩, ⟨.ty, defB⟩] }) := by
  constructor
  · simp only [getQuery]
    unfold getStep
    rw [hmiss]
    simp [hmem]
  · decide

theorem C3_witness :
    lookupMemo ((⟨[], [⟨.ty, defA⟩], []⟩ : EngineState Nat)).memo ⟨.ty, defA⟩ = none ∧
    (⟨.ty, defA⟩ : Query) ∈ ((⟨[], [⟨.ty, defA⟩], []⟩ : EngineState Nat)).stack ∧
    getQuery pt0 1 ⟨[], [⟨.ty, defA⟩], []⟩ .ty defA
      = (.cycle (cycleChain [⟨.ty, defA⟩] ⟨.ty, defA⟩), ⟨[], [⟨.ty, defA⟩], []⟩) :=
  ⟨rfl, by decide,
    (C3_cycle_scan_before_dispatch pt0 0 ⟨[], [⟨.ty, defA⟩], []⟩ .ty defA
      rfl (by decide)).1⟩

/-- C4: a get for a (kind, crate) slot with no registered provider —
a row whose cell for the kind is the `Default` stub — yields an
UnsupportedQuery failure that names the query kind and carries the key
(its diagnostic text is the stub's `bug!` message naming both), and
never returns a default or zero Value. -/
theorem C4_unregistered_slot_fails_loudly {V : Type} (pt : List (Providers V))
    (fuel : Nat) (s : EngineState V) (kind : QueryKind) (key : DefId)
    (hmiss : lookupMemo s.memo ⟨kind, key⟩ = none)
    (hnost : (⟨kind, key⟩ : Query) ∉ s.stack)
    (hstub : providerFor pt kind key = some none) :
    getQuery pt (fuel + 1) s kind key = (.unsupported kind key, s) ∧
    failureMessage ((getQuery pt (fuel + 1) s kind key).1)
      = some (bugMessage kind key) ∧
    ∀ v : V, (getQuery pt (fuel + 1) s kind key).1 ≠ .ok v := by
  have h1 : getQuery pt (fuel + 1) s kind key = (.unsupported kind key, s) := by
    simp only [getQuery]
    unfold getStep
    rw [hmiss]
    simp [hnost, hstub, popFrame, pushFrame, List.dropLast_concat]
  refine ⟨h1, ?_, ?_⟩
  · rw [h1]
    rfl
  · intro v hv
    rw [h1] at hv
    exact QueryResult.noConfusion hv

theorem C4_witness :
    providerFor pt0 .generics ⟨0, 5⟩ = some none ∧
    getQuery pt0 1 (initState Nat) .generics ⟨0, 5⟩
      = (.unsupported .generics ⟨0, 5⟩, initState Nat) :=
  ⟨rfl,
    (C4_unregistered_slot_fails_loudly pt0 0 (initState Nat) .generics ⟨0, 5⟩
      rfl (by decide) rfl).1⟩

/-- C5: a get that ends in a Cycle or UnsupportedQuery failure pops
every frame it pushed before the failure propagates: the stack after
the failing call equals — in particular has the same length as — the
stack immediately before it, and the memo table is not corrupted (every
entry present before the call is still present, unchanged, after it). -/
theorem C5_stack_restored_after_failure {V : Type} (pt : List (Providers V))
    (fuel : Nat) (s s' : EngineState V) (kind : QueryKind) (key : DefId)
    (r : QueryResult V)
    (h : getQuery pt fuel s kind key = (r, s'))
    (_hfail : (∃ c, r = QueryResult.cycle c) ∨
      ∃ k d, r = QueryResult.unsupported k d) :
    s'.stack.length = s.stack.length ∧
    s'.stack = s.stack ∧
    ∀ (q : Query) (v : V), lookupMemo s.memo q = some v →
      lookupMemo s'.memo q = some v := by
  have hs := getQuery_stack pt fuel s kind key
  rw [h] at hs
  simp only [Prod.snd] at hs
  refine ⟨by rw [hs], hs, ?_⟩
  intro q v hv
  have hp := getQuery_memo_preserve pt fuel s kind key q v hv
  rw [h] at hp
  exact hp

theorem C5_witness :
    getQuery cycPT 10 (initState Nat) .ty defA
      = (.cycle [⟨.ty, defA⟩, ⟨.ty, defB⟩],
          ⟨[], [], [⟨.ty, defA⟩, ⟨.ty, defB⟩]⟩) ∧
    ((⟨[], [], [⟨.ty, defA⟩, ⟨.ty, defB⟩]⟩ : EngineState Nat)).stack.length
      = (initState Nat).stack.length :=
  ⟨by decide,
    (C5_stack_restored_after_failure cycPT 10 (initState Nat)
      ⟨[], [], [⟨.ty, defA⟩, ⟨.ty, defB⟩]⟩ .ty defA
      (.cycle [⟨.ty, defA⟩, ⟨.ty, defB⟩]) (by decide)
      (Or.inl ⟨_, rfl⟩)).1⟩

/-- C6: when a get for (kind, key) ends in a Cycle or UnsupportedQuery
failure, no entry for that pair is inserted into the memo table — the
pair's memo lookup still misses afterwards, so a later get in the same
session attempts the computation again rather than replaying a
memoized failure. -/
theorem C6_failure_not_memoized {V : Type} (pt : List (Providers V))
    (fuel : Nat) (s s' : EngineState V) (kind : QueryKind) (key : DefId)
    (r : QueryResult V)
    (hmiss : lookupMemo s.memo ⟨kind, key⟩ = none)
    (h : getQuery pt fuel s kind key = (r, s'))
    (hfail : (∃ c, r = QueryResult.cycle c) ∨
      ∃ k d, r = QueryResult.unsupported k d) :
    lookupMemo s'.memo ⟨kind, key⟩ = none := by
  apply (getQuery_requested_memo pt fuel s kind key r s' hmiss h).2
  intro v hv
  rcases hfail with ⟨c, rfl⟩ | ⟨k, d, rfl⟩
  · exact QueryResult.noConfusion hv
  · exact QueryResult.noConfusion hv

theorem C6_witness :
    getQuery cycPT 10 (initState Nat) .ty defA
      = (.cycle [⟨.ty, defA⟩, ⟨.ty, defB⟩],
          ⟨[], [], [⟨.ty, defA⟩, ⟨.ty, defB⟩]⟩) ∧
    lookupMemo ((⟨[], [], [⟨.ty, defA⟩, ⟨.ty, defB⟩]⟩ : EngineState Nat)).memo
      ⟨.ty, defA⟩ = none :=
  ⟨by decide,
    C6_failure_not_memoized cycPT 10 (initState Nat)
      ⟨[], [], [⟨.ty, defA⟩, ⟨.ty, defB⟩]⟩ .ty defA
      (.cycle [⟨.ty, defA⟩, ⟨.ty, defB⟩]) rfl (by decide)
      (Or.inl ⟨_, rfl⟩)⟩

/-- C7: no (kind, key) pair is ever simultaneously a frame on the query
stack and an entry in the memo table: the disjointness invariant holds
of the initial session state and is preserved by every get call (inside
the dispatcher the pair's frame is popped strictly before its result is
inserted: the success branch of `getStep` applies `popFrame` before
`insertResult`). -/
theorem C7_stack_memo_disjointness {V : Type} (pt : List (Providers V))
    (fuel : Nat) (s : EngineState V) (kind : QueryKind) (key : DefId)
    (h : DisjointSM s) :
    DisjointSM ((getQuery pt fuel s kind key).2) ∧ DisjointSM (initState V) :=
  ⟨getQuery_disjoint pt fuel s kind key h,
    fun q hq => absurd hq (List.not_mem_nil q)⟩

theorem C7_witness :
    DisjointSM (initState Nat) ∧
    (DisjointSM ((getQuery pt0 2 (initState Nat) .ty ⟨0, 3⟩).2) ∧
      DisjointSM (initState Nat)) :=
  ⟨fun q hq => absurd hq (List.not_mem_nil q),
    C7_stack_memo_disjointness pt0 2 (initState Nat) .ty ⟨0, 3⟩
      (fun q hq => absurd hq (List.not_mem_nil q))⟩

/-- C8: the memo table holds at most one entry per key (its keys stay
pairwise distinct across any get call), and an entry, once inserted, is
never overwritten within a session: a second insert for an
already-present key is a no-op — it never silently replaces the stored
Value — and every entry present before a get call is still present with
the same Value after it. -/
theorem C8_at_most_one_entry_no_overwrite {V : Type} (pt : List (Providers V))
    (fuel : Nat) (s : EngineState V) (kind : QueryKind) (key : DefId)
    (hnod : NodupKeys s.memo) :
    NodupKeys ((getQuery pt fuel s kind key).2).memo ∧
    (∀ (m : List (Query × V)) (q : Query) (v w : V),
      lookupMemo m q = some v → insertMemo m q w = m) ∧
    (∀ (q : Query) (v : V), lookupMemo s.memo q = some v →
      lookupMemo ((getQuery pt fuel s kind key).2).memo q = some v) :=
  ⟨getQuery_nodupKeys pt fuel s kind key hnod,
    fun m q v w hv => insertMemo_of_present m q v w hv,
    fun q v hv => getQuery_memo_preserve pt fuel s kind key q v hv⟩

theorem C8_witness :
    NodupKeys afterTyState.memo ∧
    (NodupKeys ((getQuery pt0 1 afterTyState .generics ⟨0, 5⟩).2).memo ∧
      (∀ (m : List (Query × Nat)) (q : Query) (v w : Nat),
        lookupMemo m q = some v → insertMemo m q w = m) ∧
      (∀ (q : Query) (v : Nat), lookupMemo afterTyState.memo q = some v →
        lookupMemo ((getQuery pt0 1 afterTyState .generics ⟨0, 5⟩).2).memo q
          = some v)) :=
  ⟨by unfold NodupKeys; decide,
    C8_at_most_one_entry_no_overwrite pt0 1 afterTyState .generics ⟨0, 5⟩
      (by unfold NodupKeys; decide)⟩

/-- C9: the (kind, key) → dep-node mapping is not injective in the
kind: every query kind declared with the `ItemSignature` node
constructor — the 12 pairwise-distinct kinds of `itemSignatureKinds` —
yields the identical dep node `ItemSignature(key)` for a given key, so
dep-node identity equality does not distinguish which of these queries
a node belongs to. -/
theorem C9_dep_node_not_injective_in_kind (key : DefId) (k1 k2 : QueryKind)
    (h1 : k1 ∈ itemSignatureKinds) (h2 : k2 ∈ itemSignatureKinds) :
    to_dep_node k1 key = to_dep_node k2 key ∧
    to_dep_node k1 key = { ctor := .ItemSignature, key := key } ∧
    itemSignatureKinds.Nodup ∧
    itemSignatureKinds.length = 12 ∧
    ¬ Function.Injective (fun kk : QueryKind × DefId => to_dep_node kk.1 kk.2) := by
  have hall : ∀ k ∈ itemSignatureKinds, nodeOf k = .ItemSignature := by decide
  have e1 : to_dep_node k1 key = { ctor := .ItemSignature, key := key } := by
    unfold to_dep_node
    rw [hall k1 h1]
  have e2 : to_dep_node k2 key = { ctor := .ItemSignature, key := key } := by
    unfold to_dep_node
    rw [hall k2 h2]
  refine ⟨e1.trans e2.symm, e1, by decide, by decide, ?_⟩
  intro hinj
  have hcontra : (QueryKind.ty, (⟨0, 0⟩ : DefId))
      = (QueryKind.generics, (⟨0, 0⟩ : DefId)) := hinj rfl
  exact absurd hcontra (by decide)

theorem C9_witness :
    QueryKind.ty ∈ itemSignatureKinds ∧
    QueryKind.generics ∈ itemSignatureKinds ∧
    to_dep_node .ty ⟨0, 0⟩ = to_dep_node .generics ⟨0, 0⟩ :=
  ⟨by decide, by decide,
    (C9_dep_node_not_injective_in_kind ⟨0, 0⟩ .ty .generics
      (by decide) (by decide)).1⟩

/-- C10: the per-crate provider row is selected by indexing the
providers table with the key's owning crate number with no bounds or
presence check (`self.providers[key.map_crate()]`); for a key whose
owning crate number has no row in the table passed to `Maps::new`, the
call fails with the out-of-bounds indexing panic — carrying the
offending crate number — and not with the UnsupportedQuery stub, nor
with any Value. -/
theorem C10_missing_row_is_index_panic {V : Type} (pt : List (Providers V))
    (fuel : Nat) (s : EngineState V) (kind : QueryKind) (key : DefId)
    (hmiss : lookupMemo s.memo ⟨kind, key⟩ = none)
    (hnost : (⟨kind, key⟩ : Query) ∉ s.stack)
    (hrow : pt.get? key.map_crate = none) :
    getQuery pt (fuel + 1) s kind key = (.indexPanic key.map_crate, s) ∧
    (∀ (k : QueryKind) (d : DefId),
      (getQuery pt (fuel + 1) s kind key).1 ≠ .unsupported k d) ∧
    ∀ v : V, (getQuery pt (fuel + 1) s kind key).1 ≠ .ok v := by
  have hpf : providerFor pt kind key = none := by
    unfold providerFor
    rw [hrow]
    rfl
  have h1 : getQuery pt (fuel + 1) s kind key = (.indexPanic key.map_crate, s) := by
    simp only [getQuery]
    unfold getStep
    rw [hmiss]
    simp [hnost, hpf, popFrame, pushFrame, List.dropLast_concat]
  refine ⟨h1, ?_, ?_⟩
  · intro k d hv
    rw [h1] at hv
    exact QueryResult.noConfusion hv
  · intro v hv
    rw [h1] at hv
    exact QueryResult.noConfusion hv

theorem C10_witness :
    pt0.get? (DefId.map_crate ⟨1, 3⟩) = none ∧
    getQuery pt0 1 (initState Nat) .ty ⟨1, 3⟩
      = (.indexPanic (DefId.map_crate ⟨1, 3⟩), initState Nat) :=
  ⟨rfl,
    (C10_missing_row_is_index_panic pt0 0 (initState Nat) .ty ⟨1, 3⟩
      rfl (by decide) rfl).1⟩
